import Mathlib

/-!
Verification of the streaming-consumption and request-lifecycle core of the
`useLLM` hook (`src/useLLM.ts`, current version: the one with `onComplete` /
`onError` callbacks and `lastCallId`).

The embedding models:

* `utf8DecodeReplace` — the WHATWG UTF-8 decoder in replacement (non-fatal)
  mode, flushed at the end of each call.  The source constructs one
  `TextDecoder("utf-8")` per call but invokes `decoder.decode(value)`
  *without* `{stream: true}`; such a call always starts from a clean decoder
  state and flushes at its end, so each chunk is decoded independently and
  the per-chunk decode is the pure function modelled here.
* `ReadEvent` — one result of `reader.read()`: a byte chunk, end-of-stream
  (`{value: undefined, done: true}`, which decodes to `""`), or a rejection
  carrying the thrown error's `name` and `message`.
* `Act` — the externally observable effects: React state setters on the
  hook's call state, reader cancellation / lock release, and the optional
  `onError` / `onComplete` callback invocations.
* `rsLoop` / `readStream` — the `while (true)` read loop and the
  finalisation code after it, producing the trace of actions, the
  accumulated `result`, and `errorInRead`.  The abort signal is modelled as
  a function of the iteration index, sampled once per iteration (the loop
  only observes the signal at iteration boundaries).  An event list that
  runs out without a terminal event corresponds to a read that never
  resolves: the model returns `none` (the loop hangs).
* `send` — the entry operation: call-state reset, the fetch outcome
  (transport rejection, non-2xx response, or a 2xx response carrying the
  `x-callId` header and the body's read events), and the dispatch to
  `readStream` in streaming or non-streaming mode.
* `CallState` / `runTrace` — the hook's four state fields and the effect of
  a trace of actions on them.

JavaScript's `decoded.substring(6)` counts UTF-16 code units; it is modelled
by dropping six characters, which agrees whenever `decoded` starts with the
six ASCII characters of the sentinel `"Error:"` (the only case the source
reaches it).
-/

/-- Decoder state of the WHATWG UTF-8 decoder: how many continuation bytes
are still needed, how many were seen, the code point accumulated so far, and
the admissible range for the next continuation byte. -/
structure DecState where
  needed : Nat
  seen : Nat
  cp : Nat
  lo : Nat
  hi : Nat
deriving DecidableEq

/-- Initial (clean) decoder state. -/
def initDec : DecState := ⟨0, 0, 0, 0x80, 0xBF⟩

/-- Process one byte in the clean state: emitted code points and next state. -/
def decStart (b : Nat) : List Nat × DecState :=
  if b ≤ 0x7F then ([b], initDec)
  else if 0xC2 ≤ b ∧ b ≤ 0xDF then ([], ⟨1, 0, b % 32, 0x80, 0xBF⟩)
  else if 0xE0 ≤ b ∧ b ≤ 0xEF then
    ([], ⟨2, 0, b % 16, if b = 0xE0 then 0xA0 else 0x80,
          if b = 0xED then 0x9F else 0xBF⟩)
  else if 0xF0 ≤ b ∧ b ≤ 0xF4 then
    ([], ⟨3, 0, b % 8, if b = 0xF0 then 0x90 else 0x80,
          if b = 0xF4 then 0x8F else 0xBF⟩)
  else ([0xFFFD], initDec)

/-- The WHATWG UTF-8 decode loop over a byte list, emitting code points; an
invalid continuation byte emits U+FFFD and is reprocessed from the clean
state, and a dangling partial sequence at end of input emits one U+FFFD
(the end-of-call flush of a non-streaming `decode`). -/
def decLoop : DecState → List Nat → List Nat
  | st, [] => if st.needed = 0 then [] else [0xFFFD]
  | st, b :: rest =>
    if st.needed = 0 then
      let p := decStart b
      p.1 ++ decLoop p.2 rest
    else if b < st.lo ∨ st.hi < b then
      let p := decStart b
      0xFFFD :: (p.1 ++ decLoop p.2 rest)
    else if st.seen + 1 = st.needed then
      (st.cp * 64 + b % 64) :: decLoop initDec rest
    else
      decLoop ⟨st.needed, st.seen + 1, st.cp * 64 + b % 64, 0x80, 0xBF⟩ rest

/-- One full call of `TextDecoder("utf-8").decode(bytes)` without
`{stream: true}`: clean initial state, flushed at the end. -/
def utf8DecodeReplace (bs : List Nat) : String :=
  String.mk ((decLoop initDec bs).map Char.ofNat)

/-- The UTF-8 bytes of an ASCII string (used to build concrete byte chunks;
valid whenever every character is below 0x80). -/
def strBytes (s : String) : List Nat := s.data.map Char.toNat

/-- Whether `n` is a (character-wise) initial segment of `h`. -/
def leadsWith : List Char → List Char → Bool
  | [], _ => true
  | _ :: _, [] => false
  | a :: as, b :: bs => a = b && leadsWith as bs

/-- Whether `n` occurs contiguously anywhere inside `h`. -/
def hasSub (n : List Char) : List Char → Bool
  | [] => leadsWith n []
  | b :: bs => leadsWith n (b :: bs) || hasSub n bs

/-- JavaScript's `s.startsWith(p)`. -/
def jsStartsWith (s p : String) : Bool := leadsWith p.data s.data

/-- JavaScript's `s.substring(n)` (code-unit index `n`; coincides with the
character index whenever the first `n` units of `s` are ASCII, which is the
only way the source reaches it: after the six ASCII sentinel characters). -/
def jsSubstring (s : String) (n : Nat) : String := String.mk (s.data.drop n)

/-- One result of `reader.read()` observed by the loop. -/
inductive ReadEvent
  | chunk (bytes : List Nat)
  | eof
  | err (name message : String)
deriving DecidableEq

/-- Externally observable effects of the hook's core. -/
inductive Act
  | setResponse (s : String)
  | setIdle (b : Bool)
  | setError (s : String)
  | setLastCallId (s : String)
  | readerCancel
  | releaseLock
  | onError (s : String)
  | onComplete (s : String)
deriving DecidableEq

/-- True for the actions the read loop itself can emit. -/
def Act.isLoopAct : Act → Bool
  | .setResponse _ => true
  | .readerCancel => true
  | .releaseLock => true
  | _ => false

/-- True for an `onComplete` callback invocation. -/
def Act.isOnComplete : Act → Bool
  | .onComplete _ => true
  | _ => false

/-- True for an `onError` callback invocation. -/
def Act.isOnError : Act → Bool
  | .onError _ => true
  | _ => false

/-- True for a write to the error field. -/
def Act.isSetError : Act → Bool
  | .setError _ => true
  | _ => false

/-- True for a write to the response field. -/
def Act.isSetResponse : Act → Bool
  | .setResponse _ => true
  | _ => false

/-- The `while (true)` loop of `readStream` (current version).  `ab k` is the
value of `signal.aborted` during iteration `k`; `stream` is the streaming
flag.  Returns the loop's action trace, the accumulated `result`, and
`errorInRead`, or `none` when the event list is exhausted with no terminal
event (a read that never resolves). -/
def rsLoop (ab : Nat → Bool) (stream : Bool) :
    Nat → List ReadEvent → String → Option (List Act × String × String)
  | k, [], result =>
    if ab k then some ([.readerCancel, .releaseLock], result, "") else none
  | k, ev :: rest, result =>
    if ab k then some ([.readerCancel, .releaseLock], result, "")
    else
      match ev with
      | .err name message =>
        some ([], result,
          if name = "AbortError" then "" else "Read error: " ++ message)
      | .chunk bs =>
        let decoded := utf8DecodeReplace bs
        let result' := result ++ decoded
        let pub := if stream then [Act.setResponse result'] else []
        if jsStartsWith decoded "Error:" then
          some (pub, result', jsSubstring decoded 6)
        else
          (rsLoop ab stream (k + 1) rest result').map
            (fun t => (pub ++ t.1, t.2))
      | .eof =>
        let pub := if stream then [Act.setResponse result] else []
        some (pub, result, "")

/-- The whole of `readStream` (current version): the loop, then
`setIdle(true)`, the error block (guarded by the truthiness of
`errorInRead`), and the unconditional `onComplete` invocation.  `hoc` / `hoe`
record whether the optional `onComplete` / `onError` callbacks were
supplied. -/
def readStream (stream : Bool) (ab : Nat → Bool) (events : List ReadEvent)
    (hoc hoe : Bool) : Option (List Act × String) :=
  match rsLoop ab stream 0 events "" with
  | none => none
  | some (tr, result, errorInRead) =>
    some (tr ++ [Act.setIdle true]
      ++ (if errorInRead = "" then []
          else [Act.setError errorInRead, Act.readerCancel]
            ++ (if hoe then [Act.onError errorInRead] else []))
      ++ (if hoc then [Act.onComplete result] else []), result)

/-- Outcome of the `fetch` call: a transport-level rejection with the thrown
error's message, or a response with its `ok` flag, status, status text, the
optional `x-callId` header, and (when read) the body's read events. -/
inductive FetchOutcome
  | reject (message : String)
  | resp (ok : Bool) (status : Nat) (statusText : String)
      (callId : Option String) (events : List ReadEvent)
deriving DecidableEq

/-- What `send` resolves to: the reader (streaming), the accumulated text
(non-streaming), or `undefined` (error paths). -/
inductive SendRet
  | reader
  | text (s : String)
  | undef
deriving DecidableEq

/-- The entry operation `send` (current version): reset of the call state,
the fetch, and the dispatch to `readStream`; on a transport rejection or a
non-2xx response it records `errorInFetch`, fires `onError` when supplied,
and resolves to `undefined`. -/
def send (stream : Bool) (fo : FetchOutcome) (ab : Nat → Bool)
    (hoc hoe : Bool) : Option (List Act × SendRet) :=
  let pre := [Act.setResponse "", Act.setIdle false]
  match fo with
  | .reject message =>
    let e := "Error: Having trouble connecting to chat service. ("
      ++ message ++ ")"
    some (pre ++ [Act.setError e]
      ++ (if hoe then [Act.onError e] else []), .undef)
  | .resp ok status statusText callId events =>
    if ok then
      let pre2 := pre ++ [Act.setLastCallId (callId.getD ""),
        Act.setIdle false]
      if stream then
        match readStream true ab events hoc hoe with
        | none => none
        | some (tr, _) => some (pre2 ++ tr, .reader)
      else
        match readStream false ab events hoc hoe with
        | none => none
        | some (tr, r) => some (pre2 ++ tr, .text r)
    else
      let e := "Error: Network error for service. (" ++ toString status
        ++ " " ++ statusText ++ ")"
      some (pre ++ [Act.setError e]
        ++ (if hoe then [Act.onError e] else []), .undef)

/-- The hook's mutable call state. -/
structure CallState where
  response : String
  idle : Bool
  error : String
  lastCallId : String
deriving DecidableEq

/-- Call state at session start. -/
def initState : CallState := ⟨"", true, "", ""⟩

/-- Effect of one action on the call state (callback invocations and reader
operations do not touch it). -/
def applyAction (s : CallState) : Act → CallState
  | .setResponse v => { s with response := v }
  | .setIdle b => { s with idle := b }
  | .setError v => { s with error := v }
  | .setLastCallId v => { s with lastCallId := v }
  | _ => s

/-- Effect of a trace of actions on the call state. -/
def runTrace (s : CallState) (tr : List Act) : CallState :=
  tr.foldl applyAction s

/-- A signal that is never aborted. -/
def noAbort : Nat → Bool := fun _ => false

/-- Concatenation of the independent decodes of a chunk list. -/
def concatD : List (List Nat) → String
  | [] => ""
  | c :: cs => utf8DecodeReplace c ++ concatD cs

/-- The `setResponse` publications the streaming loop emits while consuming
a chunk list, starting from accumulated text `acc`. -/
def pubTrace (acc : String) : List (List Nat) → List Act
  | [] => []
  | c :: cs =>
    Act.setResponse (acc ++ utf8DecodeReplace c)
      :: pubTrace (acc ++ utf8DecodeReplace c) cs


/-! ### Generic helper lemmas -/

theorem strAppendAssoc (a b c : String) : a ++ b ++ c = a ++ (b ++ c) := by
  apply String.ext
  simp

theorem strPrefixNeEmpty (x y : String) (hx : x ≠ "") : x ++ y ≠ "" := by
  intro h
  apply hx
  apply String.ext
  have := congrArg String.data h
  simp only [String.data_append] at this
  rcases List.append_eq_nil.mp this with ⟨h1, _⟩
  simpa using h1

theorem runTraceAppend (s : CallState) (t₁ t₂ : List Act) :
    runTrace s (t₁ ++ t₂) = runTrace (runTrace s t₁) t₂ := by
  simp [runTrace]

theorem applyActErrorEq (s : CallState) (a : Act) (h : a.isSetError = false) :
    (applyAction s a).error = s.error := by
  cases a <;> simp_all [applyAction, Act.isSetError]

theorem applyActResponseEq (s : CallState) (a : Act) (h : a.isSetResponse = false) :
    (applyAction s a).response = s.response := by
  cases a <;> simp_all [applyAction, Act.isSetResponse]

theorem runTraceErrorEq (t : List Act) :
    ∀ s : CallState, (∀ v, Act.setError v ∉ t) → (runTrace s t).error = s.error := by
  induction t with
  | nil => intro s _; rfl
  | cons a t ih =>
    intro s h
    have ha : a.isSetError = false := by
      cases a <;> first
        | rfl
        | exact absurd (List.mem_cons_self _ _) (h _)
    have ht : ∀ v, Act.setError v ∉ t := fun v hv => h v (by simp [hv])
    calc (runTrace s (a :: t)).error
        = (runTrace (applyAction s a) t).error := rfl
      _ = (applyAction s a).error := ih _ ht
      _ = s.error := applyActErrorEq s a ha

theorem runTraceResponseEq (t : List Act) :
    ∀ s : CallState, (∀ a ∈ t, a.isSetResponse = false) →
      (runTrace s t).response = s.response := by
  induction t with
  | nil => intro s _; rfl
  | cons a t ih =>
    intro s h
    calc (runTrace s (a :: t)).response
        = (runTrace (applyAction s a) t).response := rfl
      _ = (applyAction s a).response := ih _ (fun b hb => h b (by simp [hb]))
      _ = s.response := applyActResponseEq s a (h a (by simp))

theorem loopActNotOnComplete (a : Act) (h : a.isLoopAct = true) :
    a.isOnComplete = false := by
  cases a <;> simp_all [Act.isLoopAct, Act.isOnComplete]

theorem loopActNotOnError (a : Act) (h : a.isLoopAct = true) :
    a.isOnError = false := by
  cases a <;> simp_all [Act.isLoopAct, Act.isOnError]

theorem loopActNotSetError (a : Act) (h : a.isLoopAct = true) :
    a.isSetError = false := by
  cases a <;> simp_all [Act.isLoopAct, Act.isSetError]

theorem setResponseNotOnComplete (a : Act) (h : a.isSetResponse = true) :
    a.isOnComplete = false := by
  cases a <;> simp_all [Act.isSetResponse, Act.isOnComplete]

theorem setResponseNotOnError (a : Act) (h : a.isSetResponse = true) :
    a.isOnError = false := by
  cases a <;> simp_all [Act.isSetResponse, Act.isOnError]

/-! ### Structure of the loop trace -/

theorem rsLoopLoopActs (ab : Nat → Bool) (stream : Bool) :
    ∀ (es : List ReadEvent) (k : Nat) (acc : String) (tr : List Act) (r e : String),
      rsLoop ab stream k es acc = some (tr, r, e) → ∀ a ∈ tr, a.isLoopAct = true := by
  intro es
  induction es with
  | nil =>
    intro k acc tr r e h a ha
    simp only [rsLoop] at h
    split at h
    · simp only [Option.some.injEq, Prod.mk.injEq] at h
      obtain ⟨rfl, -, -⟩ := h
      rcases ha with _ | ⟨_, _ | ⟨_, h3⟩⟩
      · rfl
      · rfl
      · exact absurd h3 (List.not_mem_nil a)
    · simp at h
  | cons ev rest ih =>
    intro k acc tr r e h a ha
    simp only [rsLoop] at h
    split at h
    · simp only [Option.some.injEq, Prod.mk.injEq] at h
      obtain ⟨rfl, -, -⟩ := h
      rcases ha with _ | ⟨_, _ | ⟨_, h3⟩⟩
      · rfl
      · rfl
      · exact absurd h3 (List.not_mem_nil a)
    · cases ev with
      | err name message =>
        simp only [Option.some.injEq, Prod.mk.injEq] at h
        obtain ⟨rfl, -, -⟩ := h
        exact absurd ha (List.not_mem_nil a)
      | chunk bs =>
        simp only at h
        split at h
        · simp only [Option.some.injEq, Prod.mk.injEq] at h
          obtain ⟨rfl, -, -⟩ := h
          split at ha
          · rcases ha with _ | ⟨_, h2⟩
            · rfl
            · exact absurd h2 (List.not_mem_nil a)
          · exact absurd ha (List.not_mem_nil a)
        · obtain ⟨t, ht, htr⟩ := Option.map_eq_some'.mp h
          simp only [Prod.mk.injEq] at htr
          obtain ⟨htr1, -⟩ := htr
          subst htr1
          rcases List.mem_append.mp ha with hl | hr
          · split at hl
            · rcases hl with _ | ⟨_, h2⟩
              · rfl
              · exact absurd h2 (List.not_mem_nil a)
            · exact absurd hl (List.not_mem_nil a)
          · exact ih (k + 1) (acc ++ utf8DecodeReplace bs) t.1 t.2.1 t.2.2 ht a hr
      | eof =>
        simp only [Option.some.injEq, Prod.mk.injEq] at h
        obtain ⟨rfl, -, -⟩ := h
        split at ha
        · rcases ha with _ | ⟨_, h2⟩
          · rfl
          · exact absurd h2 (List.not_mem_nil a)
        · exact absurd ha (List.not_mem_nil a)

theorem rsLoopSentinelStep (c : List Nat) (post : List ReadEvent) (k : Nat) (acc : String)
    (h : jsStartsWith (utf8DecodeReplace c) "Error:" = true) :
    rsLoop noAbort true k (ReadEvent.chunk c :: post) acc
      = some ([Act.setResponse (acc ++ utf8DecodeReplace c)],
          acc ++ utf8DecodeReplace c, jsSubstring (utf8DecodeReplace c) 6) := by
  simp [rsLoop, noAbort, h]

theorem rsLoopCleanPre (pre : List (List Nat)) :
    ∀ (rest : List ReadEvent) (k : Nat) (acc : String),
      (∀ p ∈ pre, jsStartsWith (utf8DecodeReplace p) "Error:" = false) →
      rsLoop noAbort true k (pre.map ReadEvent.chunk ++ rest) acc
        = (rsLoop noAbort true (k + pre.length) rest (acc ++ concatD pre)).map
            (fun t => (pubTrace acc pre ++ t.1, t.2)) := by
  induction pre with
  | nil =>
    intro rest k acc _
    simp only [List.map_nil, List.nil_append, concatD, pubTrace, List.length_nil,
      Nat.add_zero, String.append_empty]
    cases rsLoop noAbort true k rest acc <;> rfl
  | cons p ps ih =>
    intro rest k acc h
    have hp : jsStartsWith (utf8DecodeReplace p) "Error:" = false := h p (by simp)
    have hps : ∀ q ∈ ps, jsStartsWith (utf8DecodeReplace q) "Error:" = false :=
      fun q hq => h q (by simp [hq])
    simp only [List.map_cons, List.cons_append]
    rw [show rsLoop noAbort true k
        (ReadEvent.chunk p :: (ps.map ReadEvent.chunk ++ rest)) acc
      = (rsLoop noAbort true (k + 1) (ps.map ReadEvent.chunk ++ rest)
          (acc ++ utf8DecodeReplace p)).map
          (fun t => ([Act.setResponse (acc ++ utf8DecodeReplace p)] ++ t.1, t.2)) by
        simp [rsLoop, noAbort, hp]]
    rw [ih _ (k + 1) (acc ++ utf8DecodeReplace p) hps]
    rw [Option.map_map]
    have harg : acc ++ utf8DecodeReplace p ++ concatD ps = acc ++ concatD (p :: ps) := by
      rw [concatD, strAppendAssoc]
    have hk : k + 1 + ps.length = k + (p :: ps).length := by
      simp only [List.length_cons]
      omega
    rw [harg, hk]
    congr 1

theorem readStreamSentinel (pre : List (List Nat)) (c : List Nat) (post : List ReadEvent)
    (hoc hoe : Bool)
    (hpre : ∀ p ∈ pre, jsStartsWith (utf8DecodeReplace p) "Error:" = false)
    (hc : jsStartsWith (utf8DecodeReplace c) "Error:" = true) :
    readStream true noAbort (pre.map ReadEvent.chunk ++ ReadEvent.chunk c :: post) hoc hoe
      = some (pubTrace "" pre
          ++ Act.setResponse (concatD pre ++ utf8DecodeReplace c) :: Act.setIdle true
          :: ((if jsSubstring (utf8DecodeReplace c) 6 = "" then []
              else [Act.setError (jsSubstring (utf8DecodeReplace c) 6), Act.readerCancel]
                ++ (if hoe then [Act.onError (jsSubstring (utf8DecodeReplace c) 6)] else []))
          ++ (if hoc then [Act.onComplete (concatD pre ++ utf8DecodeReplace c)] else [])),
          concatD pre ++ utf8DecodeReplace c) := by
  unfold readStream
  rw [rsLoopCleanPre pre _ 0 "" hpre]
  rw [rsLoopSentinelStep c post _ _ hc]
  simp [String.empty_append, List.append_assoc]

theorem pubTraceMem (pre : List (List Nat)) :
    ∀ (acc v : String), Act.setResponse v ∈ pubTrace acc pre →
      ∃ n, v = acc ++ concatD (pre.take n) := by
  induction pre with
  | nil =>
    intro acc v h
    simp [pubTrace] at h
  | cons p ps ih =>
    intro acc v h
    rcases List.mem_cons.mp h with h1 | h2
    · refine ⟨1, ?_⟩
      have : v = acc ++ utf8DecodeReplace p := by
        injection h1
      rw [this]
      simp [concatD, String.append_empty]
    · obtain ⟨n, hn⟩ := ih (acc ++ utf8DecodeReplace p) v h2
      refine ⟨n + 1, ?_⟩
      rw [hn]
      simp only [List.take_succ_cons, concatD]
      rw [strAppendAssoc]

theorem pubTraceAllSetResponse (pre : List (List Nat)) :
    ∀ acc, ∀ a ∈ pubTrace acc pre, a.isSetResponse = true := by
  induction pre with
  | nil =>
    intro acc a h
    simp [pubTrace] at h
  | cons p ps ih =>
    intro acc a h
    rcases List.mem_cons.mp h with rfl | h2
    · rfl
    · exact ih _ a h2

theorem countPZeroOfAll {p : Act → Bool} (t : List Act) (h : ∀ a ∈ t, p a = false) :
    t.countP p = 0 :=
  List.countP_eq_zero.mpr (by simpa using h)

/-! ### Claim theorems -/

/-- Claim C1, counterexample: the chunk sequence `["Err", "or: x"]` followed by
end-of-stream has a decoded concatenation `"Error: x"` that starts with the
sentinel `"Error:"`, yet the read loop never fires `onError` (the sentinel
check is applied to each physical chunk in isolation, and no single chunk
starts with it); the loop instead runs to completion with the full text. -/
theorem C1_counterexample :
    jsStartsWith (concatD [strBytes "Err", strBytes "or: x"]) "Error:" = true
    ∧ (readStream true noAbort
        [ReadEvent.chunk (strBytes "Err"), ReadEvent.chunk (strBytes "or: x"), ReadEvent.eof]
        true true).map (fun p => (p.1.countP Act.isOnError, p.2))
      = some (0, "Error: x") := by decide

/-- Claim C1, amended: the sentinel is detected only when a single decoded chunk
begins with `"Error:"`.  For the first such chunk (with a nonempty remainder
after the six sentinel characters), `onError` fires with that chunk's
remainder, `onComplete` fires with the concatenation of all decoded text up
to and including that chunk, and every value published to the response field
is a prefix-concatenation no later than that chunk — nothing is published
after the sentinel chunk. -/
theorem C1_sentinel_detected_per_chunk (pre : List (List Nat)) (c : List Nat)
    (post : List ReadEvent)
    (hpre : ∀ p ∈ pre, jsStartsWith (utf8DecodeReplace p) "Error:" = false)
    (hc : jsStartsWith (utf8DecodeReplace c) "Error:" = true)
    (hrem : jsSubstring (utf8DecodeReplace c) 6 ≠ "") :
    ∃ tr,
      readStream true noAbort (pre.map ReadEvent.chunk ++ ReadEvent.chunk c :: post) true true
        = some (tr, concatD pre ++ utf8DecodeReplace c)
      ∧ tr.countP Act.isOnError = 1
      ∧ Act.onError (jsSubstring (utf8DecodeReplace c) 6) ∈ tr
      ∧ tr.countP Act.isOnComplete = 1
      ∧ Act.onComplete (concatD pre ++ utf8DecodeReplace c) ∈ tr
      ∧ ∀ v, Act.setResponse v ∈ tr →
          (∃ n, v = concatD (pre.take n)) ∨ v = concatD pre ++ utf8DecodeReplace c := by
  have hbase := readStreamSentinel pre c post true true hpre hc
  rw [if_neg hrem] at hbase
  refine ⟨_, hbase, ?_, ?_, ?_, ?_, ?_⟩
  · rw [List.countP_append]
    rw [countPZeroOfAll (pubTrace "" pre)
      (fun a ha => setResponseNotOnError a (pubTraceAllSetResponse pre "" a ha))]
    simp [List.countP_cons, Act.isOnError]
  · simp
  · rw [List.countP_append]
    rw [countPZeroOfAll (pubTrace "" pre)
      (fun a ha => setResponseNotOnComplete a (pubTraceAllSetResponse pre "" a ha))]
    simp [List.countP_cons, Act.isOnComplete]
  · simp
  · intro v hv
    rcases List.mem_append.mp hv with hl | hr
    · obtain ⟨n, hn⟩ := pubTraceMem pre "" v hl
      rw [String.empty_append] at hn
      exact Or.inl ⟨n, hn⟩
    · rcases List.mem_cons.mp hr with h1 | h2
      · injection h1 with h1'
        exact Or.inr h1'
      · rcases List.mem_cons.mp h2 with h3 | h4
        · exact absurd h3 (by simp)
        · rcases List.mem_append.mp h4 with h5 | h6
          · simp at h5
          · simp at h6

/-- Witness for `C1_sentinel_detected_per_chunk` at the concrete stream
`["Hi", "Error: x"]`. -/
theorem C1_sentinel_detected_per_chunk_witness :
    ((∀ p ∈ [strBytes "Hi"], jsStartsWith (utf8DecodeReplace p) "Error:" = false)
      ∧ jsStartsWith (utf8DecodeReplace (strBytes "Error: x")) "Error:" = true
      ∧ jsSubstring (utf8DecodeReplace (strBytes "Error: x")) 6 ≠ "")
    ∧ ∃ tr,
      readStream true noAbort
          ([strBytes "Hi"].map ReadEvent.chunk
            ++ ReadEvent.chunk (strBytes "Error: x") :: []) true true
        = some (tr, concatD [strBytes "Hi"] ++ utf8DecodeReplace (strBytes "Error: x"))
      ∧ tr.countP Act.isOnError = 1
      ∧ Act.onError (jsSubstring (utf8DecodeReplace (strBytes "Error: x")) 6) ∈ tr
      ∧ tr.countP Act.isOnComplete = 1
      ∧ Act.onComplete
          (concatD [strBytes "Hi"] ++ utf8DecodeReplace (strBytes "Error: x")) ∈ tr
      ∧ ∀ v, Act.setResponse v ∈ tr →
          (∃ n, v = concatD ([strBytes "Hi"].take n))
          ∨ v = concatD [strBytes "Hi"] ++ utf8DecodeReplace (strBytes "Error: x") :=
  ⟨⟨by decide, by decide, by decide⟩,
    C1_sentinel_detected_per_chunk [strBytes "Hi"] (strBytes "Error: x") []
      (by decide) (by decide) (by decide)⟩

/-- Claim C2: with the streaming flag false and server stream `["pong"]`, `send`
resolves to the text `"pong"` and `onComplete` receives `"pong"`, but the
response field keeps its reset value `""`: publication to the response field
is guarded by the streaming flag, so the final text is never published in
non-streaming mode (contradicting the documented contract that the batched
result is returned in the response property). -/
theorem C2_nonstream_result_not_published :
    (send false (FetchOutcome.resp true 200 "OK" none
        [ReadEvent.chunk (strBytes "pong"), ReadEvent.eof]) noAbort true true).map
      (fun p => (p.2, (runTrace initState p.1).response,
        p.1.contains (Act.onComplete "pong"), p.1.countP Act.isSetResponse))
      = some (SendRet.text "pong", "", true, 1) := by decide

/-- Claim C3: after an HTTP 503 response, `send` records the error and fires
`onError`, but the trace contains no `setIdle true` action, so the idle flag
— set to false at call start — remains false forever: the terminal event of
the non-2xx path does not restore idle, contrary to the stated invariant. -/
theorem C3_idle_not_restored_on_http_error :
    (send true (FetchOutcome.resp false 503 "Service Unavailable" none []) noAbort
        true true).map
      (fun p => ((runTrace initState p.1).idle,
        p.1.contains (Act.setIdle true), p.2))
      = some (false, false, SendRet.undef) := by decide

/-- Claim C4: on an HTTP 503 response, `send` records an error text containing
`"503"`, fires `onError` with that text, resolves to `undefined` without
consuming any read event — but it leaves idle = false, not true as
claimed. -/
theorem C4_http_503_outcome :
    send true (FetchOutcome.resp false 503 "Service Unavailable" none []) noAbort true true
      = some ([Act.setResponse "", Act.setIdle false,
          Act.setError "Error: Network error for service. (503 Service Unavailable)",
          Act.onError "Error: Network error for service. (503 Service Unavailable)"],
          SendRet.undef)
    ∧ hasSub ("503".data)
        ("Error: Network error for service. (503 Service Unavailable)".data) = true
    ∧ (runTrace initState [Act.setResponse "", Act.setIdle false,
        Act.setError "Error: Network error for service. (503 Service Unavailable)",
        Act.onError "Error: Network error for service. (503 Service Unavailable)"]).error
      = "Error: Network error for service. (503 Service Unavailable)"
    ∧ (runTrace initState [Act.setResponse "", Act.setIdle false,
        Act.setError "Error: Network error for service. (503 Service Unavailable)",
        Act.onError "Error: Network error for service. (503 Service Unavailable)"]).idle
      = false := by decide

/-- Claim C5: the bytes of `"é"` (0xC3 0xA9) split at a chunk boundary do not
round-trip: because each chunk is decoded by `decoder.decode(value)` without
`{stream: true}`, no decoder state is carried between chunks, and the final
accumulated text is two replacement characters, not `"é"` — even though a
single decode of the concatenated bytes yields `"é"`. -/
theorem C5_split_multibyte_corrupted :
    (readStream true noAbort
        [ReadEvent.chunk [0xC3], ReadEvent.chunk [0xA9], ReadEvent.eof] true true).map
      (fun p => p.2)
      = some (String.mk [Char.ofNat 0xFFFD, Char.ofNat 0xFFFD])
    ∧ utf8DecodeReplace [0xC3, 0xA9] = "é"
    ∧ String.mk [Char.ofNat 0xFFFD, Char.ofNat 0xFFFD] ≠ "é" := by decide

/-- Claim C8, counterexample: for the single chunk `"Error: rate limited"`,
`onError` is invoked with `" rate limited"` (the leading space is not
stripped), not with `"rate limited"` as the claim states. -/
theorem C8_counterexample :
    (readStream true noAbort [ReadEvent.chunk (strBytes "Error: rate limited")]
        true true).map
      (fun p => (p.1.contains (Act.onError "rate limited"),
        p.1.contains (Act.onError " rate limited")))
      = some (false, true) := by decide

/-- Claim C8, amended: for the single chunk `"Error: rate limited"`, `onError` is
invoked with `" rate limited"` — everything after the fixed six-character
sentinel offset, leading space preserved — and `onComplete` is invoked with
the full literal chunk text. -/
theorem C8_onError_space_preserved :
    readStream true noAbort [ReadEvent.chunk (strBytes "Error: rate limited")] true true
      = some ([Act.setResponse "Error: rate limited", Act.setIdle true,
          Act.setError " rate limited", Act.readerCancel,
          Act.onError " rate limited", Act.onComplete "Error: rate limited"],
          "Error: rate limited") := by decide

/-- Claim C6: whenever stream consumption starts and reaches a terminal event (the
loop returns, on any of its paths: completion, sentinel, read error, or
cancellation), a supplied `onComplete` callback is invoked exactly once, with
the final accumulated text. -/
theorem C6_onComplete_exactly_once (stream : Bool) (ab : Nat → Bool)
    (events : List ReadEvent) (hoe : Bool) (tr : List Act) (r : String)
    (h : readStream stream ab events true hoe = some (tr, r)) :
    tr.countP Act.isOnComplete = 1 ∧ Act.onComplete r ∈ tr := by
  unfold readStream at h
  cases hrl : rsLoop ab stream 0 events "" with
  | none =>
    rw [hrl] at h
    simp at h
  | some trip =>
    obtain ⟨ltr, res, err⟩ := trip
    rw [hrl] at h
    simp only [if_true, Option.some.injEq, Prod.mk.injEq] at h
    obtain ⟨htr, hres⟩ := h
    subst hres
    subst htr
    have hloop : (ltr.countP Act.isOnComplete) = 0 :=
      countPZeroOfAll ltr (fun a ha =>
        loopActNotOnComplete a (rsLoopLoopActs ab stream events 0 "" ltr res err hrl a ha))
    have herr : ((if err = "" then []
        else [Act.setError err, Act.readerCancel]
          ++ (if hoe then [Act.onError err] else [])).countP Act.isOnComplete) = 0 := by
      apply countPZeroOfAll
      intro a ha
      split at ha
      · simp at ha
      · rcases List.mem_append.mp ha with h1 | h2
        · rcases List.mem_cons.mp h1 with rfl | h1'
          · rfl
          · rcases List.mem_cons.mp h1' with rfl | h1''
            · rfl
            · simp at h1''
        · split at h2
          · rcases List.mem_cons.mp h2 with rfl | h2'
            · rfl
            · simp at h2'
          · simp at h2
    constructor
    · simp only [List.countP_append, hloop, herr]
      simp [List.countP_cons, Act.isOnComplete]
    · simp

/-- Witness for `C6_onComplete_exactly_once` at the one-chunk stream
`["pong"]` with no abort. -/
theorem C6_onComplete_exactly_once_witness :
    readStream true noAbort [ReadEvent.chunk (strBytes "pong"), ReadEvent.eof] true false
      = some ([Act.setResponse "pong", Act.setResponse "pong", Act.setIdle true,
          Act.onComplete "pong"], "pong")
    ∧ (([Act.setResponse "pong", Act.setResponse "pong", Act.setIdle true,
          Act.onComplete "pong"] : List Act).countP Act.isOnComplete = 1
        ∧ Act.onComplete "pong" ∈ [Act.setResponse "pong", Act.setResponse "pong",
          Act.setIdle true, Act.onComplete "pong"]) :=
  ⟨by decide,
    C6_onComplete_exactly_once true noAbort
      [ReadEvent.chunk (strBytes "pong"), ReadEvent.eof] false
      [Act.setResponse "pong", Act.setResponse "pong", Act.setIdle true,
        Act.onComplete "pong"] "pong" (by decide)⟩

/-- Claim C7: when the cancellation signal is already triggered at the first
iteration, the loop exits before any chunk is read: the accumulated text is
empty, the reader is cancelled and its lock released, idle is set to true,
`onComplete` fires with `""` exactly when supplied, and `onError` never
fires. -/
theorem C7_abort_before_first_read (stream : Bool) (ab : Nat → Bool)
    (events : List ReadEvent) (hoc hoe : Bool) (h : ab 0 = true) :
    readStream stream ab events hoc hoe
      = some (Act.readerCancel :: Act.releaseLock :: Act.setIdle true
          :: (if hoc then [Act.onComplete ""] else []), "")
    ∧ (∀ s : CallState,
        (runTrace s (Act.readerCancel :: Act.releaseLock :: Act.setIdle true
          :: (if hoc then [Act.onComplete ""] else []))).idle = true)
    ∧ (Act.readerCancel :: Act.releaseLock :: Act.setIdle true
        :: (if hoc then [Act.onComplete ""] else [])).countP Act.isOnError = 0 := by
  refine ⟨?_, ?_, ?_⟩
  · cases events <;> simp [readStream, rsLoop, h]
  · intro s
    cases hoc <;> simp [runTrace, applyAction]
  · cases hoc <;> decide

/-- Witness for `C7_abort_before_first_read` with an always-aborted signal
and both callbacks supplied. -/
theorem C7_abort_before_first_read_witness :
    (fun _ : Nat => true) 0 = true
    ∧ (readStream true (fun _ => true) [ReadEvent.chunk (strBytes "x")] true true
        = some (Act.readerCancel :: Act.releaseLock :: Act.setIdle true
            :: (if true then [Act.onComplete ""] else []), "")
      ∧ (∀ s : CallState,
          (runTrace s (Act.readerCancel :: Act.releaseLock :: Act.setIdle true
            :: (if true then [Act.onComplete ""] else []))).idle = true)
      ∧ (Act.readerCancel :: Act.releaseLock :: Act.setIdle true
          :: (if true then [Act.onComplete ""] else [])).countP Act.isOnError = 0) :=
  ⟨rfl, C7_abort_before_first_read true (fun _ => true)
    [ReadEvent.chunk (strBytes "x")] true true rfl⟩

theorem readStreamSetErrorNe (stream : Bool) (ab : Nat → Bool) (events : List ReadEvent)
    (hoc hoe : Bool) (tr : List Act) (r : String)
    (h : readStream stream ab events hoc hoe = some (tr, r)) :
    ∀ v, Act.setError v ∈ tr → v ≠ "" := by
  unfold readStream at h
  cases hrl : rsLoop ab stream 0 events "" with
  | none =>
    rw [hrl] at h
    simp at h
  | some trip =>
    obtain ⟨ltr, res, err⟩ := trip
    rw [hrl] at h
    simp only [Option.some.injEq, Prod.mk.injEq] at h
    obtain ⟨htr, -⟩ := h
    subst htr
    intro v hv
    rcases List.mem_append.mp hv with h1 | h2
    · rcases List.mem_append.mp h1 with h3 | h4
      · rcases List.mem_append.mp h3 with h5 | h6
        · have := rsLoopLoopActs ab stream events 0 "" ltr res err hrl _ h5
          simp [Act.isLoopAct] at this
        · simp at h6
      · split at h4
        · simp at h4
        · rename_i hne
          rcases List.mem_append.mp h4 with h7 | h8
          · rcases List.mem_cons.mp h7 with heq | h7'
            · injection heq with heq'
              subst heq'
              exact hne
            · rcases List.mem_cons.mp h7' with heq2 | h7''
              · exact absurd heq2 (by simp)
              · simp at h7''
          · split at h8
            · rcases List.mem_cons.mp h8 with heq | h8'
              · exact absurd heq (by simp)
              · simp at h8'
            · simp at h8
    · split at h2
      · rcases List.mem_cons.mp h2 with heq | h2'
        · exact absurd heq (by simp)
        · simp at h2'
      · simp at h2

/-- Claim C9: starting a call resets the response field to `""` and idle to false
as its first two effects, but never clears the error field: every write to
the error field carries a nonempty error text, and a call that performs no
error write leaves the previous error text visible at every point of its
trace. -/
theorem C9_error_field_never_cleared (s : CallState) (stream : Bool) (fo : FetchOutcome)
    (ab : Nat → Bool) (hoc hoe : Bool) (tr : List Act) (ret : SendRet)
    (h : send stream fo ab hoc hoe = some (tr, ret)) :
    (∃ rest, tr = Act.setResponse "" :: Act.setIdle false :: rest)
    ∧ (∀ v, Act.setError v ∈ tr → v ≠ "")
    ∧ ((∀ v, Act.setError v ∉ tr) →
        ∀ t₁ t₂, tr = t₁ ++ t₂ → (runTrace s t₁).error = s.error) := by
  have part3 : (∀ v, Act.setError v ∉ tr) →
      ∀ t₁ t₂, tr = t₁ ++ t₂ → (runTrace s t₁).error = s.error := by
    intro hno t₁ t₂ ht
    apply runTraceErrorEq
    intro v hv
    exact hno v (by rw [ht]; exact List.mem_append_left t₂ hv)
  cases fo with
  | reject message =>
    simp only [send, Option.some.injEq, Prod.mk.injEq] at h
    obtain ⟨htr, -⟩ := h
    subst htr
    refine ⟨⟨_, rfl⟩, ?_, part3⟩
    intro v hv
    rcases List.mem_append.mp hv with h1 | h2
    · rcases List.mem_cons.mp h1 with heq | h1'
      · exact absurd heq (by simp)
      · rcases List.mem_cons.mp h1' with heq2 | h1''
        · exact absurd heq2 (by simp)
        · rcases List.mem_cons.mp h1'' with heq3 | h1'''
          · injection heq3 with heq3'
            subst heq3'
            exact strPrefixNeEmpty _ ")"
              (strPrefixNeEmpty "Error: Having trouble connecting to chat service. ("
                message (by decide))
          · simp at h1'''
    · split at h2
      · rcases List.mem_cons.mp h2 with heq | h2'
        · exact absurd heq (by simp)
        · simp at h2'
      · simp at h2
  | resp ok status statusText callId events =>
    simp only [send] at h
    split at h
    · split at h
      · cases hrs : readStream true ab events hoc hoe with
        | none =>
          rw [hrs] at h
          simp at h
        | some p =>
          obtain ⟨ptr, pr⟩ := p
          rw [hrs] at h
          simp only [Option.some.injEq, Prod.mk.injEq] at h
          obtain ⟨htr, -⟩ := h
          subst htr
          refine ⟨⟨_, rfl⟩, ?_, part3⟩
          intro v hv
          rcases List.mem_append.mp hv with h1 | h2
          · rcases List.mem_cons.mp h1 with heq | h1'
            · exact absurd heq (by simp)
            · rcases List.mem_cons.mp h1' with heq2 | h1''
              · exact absurd heq2 (by simp)
              · rcases List.mem_cons.mp h1'' with heq3 | h1'''
                · exact absurd heq3 (by simp)
                · rcases List.mem_cons.mp h1''' with heq4 | h1''''
                  · exact absurd heq4 (by simp)
                  · simp at h1''''
          · exact readStreamSetErrorNe true ab events hoc hoe ptr pr hrs v h2
      · cases hrs : readStream false ab events hoc hoe with
        | none =>
          rw [hrs] at h
          simp at h
        | some p =>
          obtain ⟨ptr, pr⟩ := p
          rw [hrs] at h
          simp only [Option.some.injEq, Prod.mk.injEq] at h
          obtain ⟨htr, -⟩ := h
          subst htr
          refine ⟨⟨_, rfl⟩, ?_, part3⟩
          intro v hv
          rcases List.mem_append.mp hv with h1 | h2
          · rcases List.mem_cons.mp h1 with heq | h1'
            · exact absurd heq (by simp)
            · rcases List.mem_cons.mp h1' with heq2 | h1''
              · exact absurd heq2 (by simp)
              · rcases List.mem_cons.mp h1'' with heq3 | h1'''
                · exact absurd heq3 (by simp)
                · rcases List.mem_cons.mp h1''' with heq4 | h1''''
                  · exact absurd heq4 (by simp)
                  · simp at h1''''
          · exact readStreamSetErrorNe false ab events hoc hoe ptr pr hrs v h2
    · simp only [Option.some.injEq, Prod.mk.injEq] at h
      obtain ⟨htr, -⟩ := h
      subst htr
      refine ⟨⟨_, rfl⟩, ?_, part3⟩
      intro v hv
      rcases List.mem_append.mp hv with h1 | h2
      · rcases List.mem_cons.mp h1 with heq | h1'
        · exact absurd heq (by simp)
        · rcases List.mem_cons.mp h1' with heq2 | h1''
          · exact absurd heq2 (by simp)
          · rcases List.mem_cons.mp h1'' with heq3 | h1'''
            · injection heq3 with heq3'
              subst heq3'
              exact strPrefixNeEmpty _ ")"
                (strPrefixNeEmpty _ statusText
                  (strPrefixNeEmpty _ " "
                    (strPrefixNeEmpty "Error: Network error for service. ("
                      (toString status) (by decide))))
            · simp at h1'''
      · split at h2
        · rcases List.mem_cons.mp h2 with heq | h2'
          · exact absurd heq (by simp)
          · simp at h2'
        · simp at h2

/-- Witness for `C9_error_field_never_cleared` at a concrete successful
streaming call. -/
theorem C9_error_field_never_cleared_witness :
    send true (FetchOutcome.resp true 200 "OK" (some "id1") [ReadEvent.eof])
        noAbort false false
      = some ([Act.setResponse "", Act.setIdle false, Act.setLastCallId "id1",
          Act.setIdle false, Act.setResponse "", Act.setIdle true], SendRet.reader)
    ∧ ((∃ rest, ([Act.setResponse "", Act.setIdle false, Act.setLastCallId "id1",
          Act.setIdle false, Act.setResponse "", Act.setIdle true] : List Act)
          = Act.setResponse "" :: Act.setIdle false :: rest)
      ∧ (∀ v, Act.setError v ∈ ([Act.setResponse "", Act.setIdle false,
          Act.setLastCallId "id1", Act.setIdle false, Act.setResponse "",
          Act.setIdle true] : List Act) → v ≠ "")
      ∧ ((∀ v, Act.setError v ∉ ([Act.setResponse "", Act.setIdle false,
          Act.setLastCallId "id1", Act.setIdle false, Act.setResponse "",
          Act.setIdle true] : List Act)) →
          ∀ t₁ t₂, ([Act.setResponse "", Act.setIdle false, Act.setLastCallId "id1",
            Act.setIdle false, Act.setResponse "", Act.setIdle true] : List Act)
            = t₁ ++ t₂ → (runTrace initState t₁).error = initState.error)) :=
  ⟨by decide,
    C9_error_field_never_cleared initState true
      (FetchOutcome.resp true 200 "OK" (some "id1") [ReadEvent.eof]) noAbort false false
      [Act.setResponse "", Act.setIdle false, Act.setLastCallId "id1",
        Act.setIdle false, Act.setResponse "", Act.setIdle true] SendRet.reader
      (by decide)⟩

/-- Claim C10: in streaming mode, the first chunk whose decoded text begins with
`"Error:"` is appended to the accumulated result and published to the
response field before the sentinel check runs: the run publishes the full
accumulated text ending in the raw sentinel chunk, and that text — sentinel
prefix included — is the final value of the response field. -/
theorem C10_sentinel_chunk_published (pre : List (List Nat)) (c : List Nat)
    (post : List ReadEvent) (hoc hoe : Bool)
    (hpre : ∀ p ∈ pre, jsStartsWith (utf8DecodeReplace p) "Error:" = false)
    (hc : jsStartsWith (utf8DecodeReplace c) "Error:" = true) :
    ∃ tr,
      readStream true noAbort (pre.map ReadEvent.chunk ++ ReadEvent.chunk c :: post) hoc hoe
        = some (tr, concatD pre ++ utf8DecodeReplace c)
      ∧ Act.setResponse (concatD pre ++ utf8DecodeReplace c) ∈ tr
      ∧ ∀ s : CallState, (runTrace s tr).response = concatD pre ++ utf8DecodeReplace c := by
  have hbase := readStreamSentinel pre c post hoc hoe hpre hc
  refine ⟨_, hbase, by simp, ?_⟩
  intro s
  have hsplit : pubTrace "" pre
      ++ Act.setResponse (concatD pre ++ utf8DecodeReplace c) :: Act.setIdle true
      :: ((if jsSubstring (utf8DecodeReplace c) 6 = "" then []
          else [Act.setError (jsSubstring (utf8DecodeReplace c) 6), Act.readerCancel]
            ++ (if hoe then [Act.onError (jsSubstring (utf8DecodeReplace c) 6)] else []))
        ++ (if hoc then [Act.onComplete (concatD pre ++ utf8DecodeReplace c)] else []))
    = (pubTrace "" pre ++ [Act.setResponse (concatD pre ++ utf8DecodeReplace c)])
      ++ (Act.setIdle true
        :: ((if jsSubstring (utf8DecodeReplace c) 6 = "" then []
            else [Act.setError (jsSubstring (utf8DecodeReplace c) 6), Act.readerCancel]
              ++ (if hoe then [Act.onError (jsSubstring (utf8DecodeReplace c) 6)] else []))
          ++ (if hoc then [Act.onComplete (concatD pre ++ utf8DecodeReplace c)] else []))) := by
    simp
  rw [hsplit, runTraceAppend]
  rw [runTraceResponseEq]
  · rw [runTraceAppend]
    simp [runTrace, applyAction]
  · intro a ha
    rcases List.mem_cons.mp ha with rfl | ha'
    · rfl
    · rcases List.mem_append.mp ha' with h1 | h2
      · split at h1
        · simp at h1
        · rcases List.mem_cons.mp h1 with rfl | h1'
          · rfl
          · rcases List.mem_cons.mp h1' with rfl | h1''
            · rfl
            · split at h1''
              · rcases List.mem_cons.mp h1'' with rfl | h1'''
                · rfl
                · simp at h1'''
              · simp at h1''
      · split at h2
        · rcases List.mem_cons.mp h2 with rfl | h2'
          · rfl
          · simp at h2'
        · simp at h2

/-- Witness for `C10_sentinel_chunk_published` at the single sentinel chunk
`"Error: oops"`. -/
theorem C10_sentinel_chunk_published_witness :
    ((∀ p ∈ ([] : List (List Nat)), jsStartsWith (utf8DecodeReplace p) "Error:" = false)
      ∧ jsStartsWith (utf8DecodeReplace (strBytes "Error: oops")) "Error:" = true)
    ∧ ∃ tr,
      readStream true noAbort
          (([] : List (List Nat)).map ReadEvent.chunk
            ++ ReadEvent.chunk (strBytes "Error: oops") :: []) false false
        = some (tr, concatD [] ++ utf8DecodeReplace (strBytes "Error: oops"))
      ∧ Act.setResponse (concatD [] ++ utf8DecodeReplace (strBytes "Error: oops")) ∈ tr
      ∧ ∀ s : CallState,
          (runTrace s tr).response = concatD [] ++ utf8DecodeReplace (strBytes "Error: oops") :=
  ⟨⟨by decide, by decide⟩,
    C10_sentinel_chunk_published [] (strBytes "Error: oops") [] false false
      (by decide) (by decide)⟩
